import Mathlib

/-!
Verification of the global-ce-stats repository (a small Python code base that
discovers HTCondor Compute Element endpoints from a GlideinWMS factory
configuration repository and from the PanDA registry, and reports per-endpoint
job tallies).

The Python functions are shallowly embedded as executable Lean definitions.
Python strings are modelled through their character lists; Python exceptions
are modelled by Option/Except results; the filesystem, the git command line
interface, the registry HTTP transport and the htcondor query library are
external collaborators and enter the model only through their documented
interfaces (explicit input lists and outcome oracles).
-/

/-! ## Character and list utilities shared by the embeddings -/

/-- Whitespace recognised by the Python `str.split()` method with no
separator argument (ASCII part; the source never meets non-ASCII input). -/
def pyIsSpace (c : Char) : Bool :=
  c == ' ' || c == '\t' || c == '\n' || c == '\r' || c == '\x0b' || c == '\x0c'

/-- Characters of a string before its first colon: the Python expression
`s.split(":")[0]`. -/
def beforeColon (l : List Char) : List Char :=
  l.takeWhile (fun c => c != ':')

/-- The Python expression `s.split()[0]`: drop leading whitespace and take the
first maximal whitespace-free token; `none` models the `IndexError` raised
when the string holds no token at all. -/
def firstToken (l : List Char) : Option (List Char) :=
  match l.dropWhile pyIsSpace with
  | [] => none
  | c :: cs => some ((c :: cs).takeWhile (fun a => !(pyIsSpace a)))

/-- Does `l` begin with the pattern `pat`? -/
def startsSeq : List Char → List Char → Bool
  | _, [] => true
  | [], _ :: _ => false
  | a :: l, b :: pat => a == b && startsSeq l pat

/-- Does `l` hold `pat` as a contiguous subsequence?  The Python expression
`pat in s` on strings. -/
def containsSeq : List Char → List Char → Bool
  | [], pat => pat.isEmpty
  | a :: t, pat => startsSeq (a :: t) pat || containsSeq t pat

/-- Does `l` end with the pattern `suf`? -/
def suffixSeq (l suf : List Char) : Bool :=
  startsSeq l.reverse suf.reverse

/-! ## EndpointAddress Normalizer (two source variants)

`ce_stats.py` line 34: `contact_str.split(":")[0].split()[0]`.
`global_ces.py` line 32: `ce_endpoint.split(":")[0]`.
-/

/-- `ce_stats._ce_fqdn`: first whitespace token of the part before the first
colon.  `none` models the `IndexError` raised by `[0]` on an empty token
list. -/
def ceStatsFqdn (s : String) : Option String :=
  (firstToken (beforeColon s.data)).map (fun l => ⟨l⟩)

/-- `global_ces._ce_fqdn`: everything before the first colon, kept verbatim
(total, never raises). -/
def globalCesFqdn (s : String) : String :=
  ⟨beforeColon s.data⟩

/-! ## ConfigEntryFilter and ConfigSetExtractor

`_parse_gwms_config` in both source files filters `entries/entry` records by
`entry.get("enabled", "") == "True" and entry.get("gridtype", "") == "condor"`
and emits `_ce_fqdn(entry.get("gatekeeper", ""))` for the admitted ones.
-/

/-- One `<entry>` record of a factory configuration document; a missing XML
attribute is `none`. -/
structure ConfigEntry where
  gatekeeper : Option String
  enabled : Option String
  gridtype : Option String
deriving DecidableEq

/-- The Python call `entry.get(attr, "")`: attribute value or empty default. -/
def entryGet (v : Option String) : String :=
  v.getD ""

/-- The admission predicate of `_parse_gwms_config` (identical in both source
files): enabled must be the literal "True" and gridtype the literal
"condor". -/
def gwmsAdmit (e : ConfigEntry) : Bool :=
  entryGet e.enabled == "True" && entryGet e.gridtype == "condor"

/-- Python exceptions that escape the embedded functions. -/
inductive PyExc where
  | keyError (key : String)
  | indexError
deriving DecidableEq

/-- `d[k]` on a Python mapping with a possibly missing key: raises `KeyError`
when absent. -/
def pyGet (v : Option α) (key : String) : Except PyExc α :=
  match v with
  | none => Except.error (PyExc.keyError key)
  | some a => Except.ok a

/-- Lift the `IndexError` possibility of `ceStatsFqdn` into `Except`. -/
def liftOpt (v : Option α) : Except PyExc α :=
  match v with
  | none => Except.error PyExc.indexError
  | some a => Except.ok a

deriving instance DecidableEq for Except

/-- `ce_stats._parse_gwms_config`: the set comprehension over admitted
entries; an `IndexError` from `_ce_fqdn` aborts the whole comprehension. -/
def parseGwmsConfig (entries : List ConfigEntry) : Except PyExc (Finset String) := do
  let l ← (entries.filter gwmsAdmit).mapM
    (fun e => liftOpt (ceStatsFqdn (entryGet e.gatekeeper)))
  pure l.toFinset

/-- Does the file name end in `.xml`, as the glob pattern `*.xml` demands? -/
def isXmlName (f : String) : Bool :=
  suffixSeq f.data ".xml".data

/-- Does the file name hold the substring `-itb.xml`, the test of the
production filter in `ce_stats.get_gwms_ces` line 116? -/
def isItbName (f : String) : Bool :=
  containsSeq f.data "-itb.xml".data

/-- The document selection of `ce_stats.get_gwms_ces`: glob the `*.xml`
names, and under the production flag drop those holding `-itb.xml`. -/
def factoryConfigs (files : List String) (production : Bool) : List String :=
  let xmls := files.filter isXmlName
  if production then xmls.filter (fun f => !(isItbName f)) else xmls

/-- `ce_stats.get_gwms_ces` over a snapshot given as named documents (file
name paired with its parsed entry list): select the documents, parse each and
union the results. -/
def getGwmsCes (docs : List (String × List ConfigEntry)) (production : Bool) :
    Except PyExc (Finset String) := do
  let xmls := docs.filter (fun d => isXmlName d.1)
  let selected := if production then xmls.filter (fun d => !(isItbName d.1)) else xmls
  let sets ← selected.mapM (fun d => parseGwmsConfig d.2)
  pure (sets.foldl (fun acc s => acc ∪ s) ∅)

/-! ## RegistryQueryClient: `ce_stats.get_panda_ces`

The registry JSON body is a mapping from opaque resource keys to resource
records; a record carries `atlas_site` and `queues`, each queue carries
`ce_endpoint`.  A missing field is `none`; the source reads each field with
plain subscription (`resource_info["atlas_site"]` and so on), so a missing
field raises `KeyError`.  The `try/except KeyError` in the source guards only
the per-site dictionary access and is modelled by `updSite`.
-/

/-- One member of the `queues` list of a registry resource record. -/
structure PandaQueue where
  ce_endpoint : Option String
deriving DecidableEq

/-- One resource record of the registry response. -/
structure PandaResource where
  atlas_site : Option String
  queues : Option (List PandaQueue)
deriving DecidableEq

/-- `panda_ces[site].update(\x7bendpoint\x7d)` with the `KeyError` fallback
`panda_ces[site] = set([endpoint])`: extend the site's endpoint set, creating
the key on first sight.  The dictionary is an insertion-ordered association
list, each site's set a duplicate-free list. -/
def updSite : List (String × List String) → String → String → List (String × List String)
  | [], site, ep => [(site, [ep])]
  | (s, eps) :: rest, site, ep =>
    if s = site then (s, if ep ∈ eps then eps else eps ++ [ep]) :: rest
    else (s, eps) :: updSite rest site ep

/-- The inner loop of `get_panda_ces` over one record's queue list. -/
def queueLoop (site : String) (acc : List (String × List String)) :
    List PandaQueue → Except PyExc (List (String × List String))
  | [] => Except.ok acc
  | q :: qs => do
    let ce ← pyGet q.ce_endpoint "ce_endpoint"
    let ep ← liftOpt (ceStatsFqdn ce)
    queueLoop site (updSite acc site ep) qs

/-- The outer loop of `get_panda_ces` over the resource records. -/
def pandaLoop (acc : List (String × List String)) :
    List (String × PandaResource) → Except PyExc (List (String × List String))
  | [] => Except.ok acc
  | (_, info) :: rest => do
    let site ← pyGet info.atlas_site "atlas_site"
    let qs ← pyGet info.queues "queues"
    let acc2 ← queueLoop site acc qs
    pandaLoop acc2 rest

/-- `ce_stats.get_panda_ces` applied to an already fetched and parsed registry
response (the HTTP transport and `json.loads` are external; their failures
abort before this function body runs).  Returns the site-keyed endpoint
grouping, or the first uncaught exception. -/
def getPandaCes (resources : List (String × PandaResource)) :
    Except PyExc (List (String × List String)) :=
  pandaLoop [] resources

/-! ## EndpointReconciler: `main` of `global-ce-stats.py`

Line 15 of the driver reads `set.union(gwms_ces, ce_stats.get_panda_ces())`.
`ce_stats.get_panda_ces` returns a dict keyed by site name, and the Python
`set.union` method iterates any iterable argument — iterating a dict yields
its KEYS.  The reconciled set therefore unions the factory endpoint set with
the registry SITE NAMES, not with the registry endpoints.
-/

/-- The endpoint set computed by `main` before the report loop; an exception
from either source propagates out of `main` uncaught. -/
def mainCeFqdns (docs : List (String × List ConfigEntry))
    (resources : List (String × PandaResource)) : Except PyExc (Finset String) := do
  let gwms ← getGwmsCes docs true
  let panda ← getPandaCes resources
  pure (gwms ∪ (panda.map Prod.fst).toFinset)

/-- The reconciled set the specification describes: union of the factory
endpoint set with the registry endpoint set flattened over its site
grouping.  Stated from the words of the specification, to be compared with
`mainCeFqdns`. -/
def specReconciled (docs : List (String × List ConfigEntry))
    (resources : List (String × PandaResource)) : Except PyExc (Finset String) := do
  let gwms ← getGwmsCes docs true
  let panda ← getPandaCes resources
  pure (gwms ∪ (panda.map Prod.snd).flatten.toFinset)

/-! ## JobTallyCollector: the report loop of `global-ce-stats.py`

`get_ce_jobs` talks to the endpoint's collector through the htcondor library
— an external collaborator modelled as an outcome oracle mapping an endpoint
to either a complete tally or the string form of the raised exception.  The
driver catches every `Exception`, zeroes the seven counts and stores
`str(exc)` in the COMMUNICATION_ERROR column.
-/

/-- A complete tally over the fixed seven HTCondor job status buckets. -/
structure JobStats where
  idle : Nat
  running : Nat
  removed : Nat
  completed : Nat
  held : Nat
  transferringOutput : Nat
  suspended : Nat
deriving DecidableEq

/-- The zero tally written by the exception handler in `main`:
`\x7bstatus: 0 for status in ce_stats.CONDOR_STATUS_MAP.values()\x7d`. -/
def zeroStats : JobStats :=
  { idle := 0, running := 0, removed := 0, completed := 0, held := 0,
    transferringOutput := 0, suspended := 0 }

/-- One CSV report row: HOSTNAME, the seven counts, COMMUNICATION_ERROR
(empty when the key was never set). -/
structure CeRow where
  hostname : String
  stats : JobStats
  commError : String
deriving DecidableEq

/-- One iteration of the report loop of `main` for one endpoint, with the
outcome of `ce_stats.get_ce_jobs` supplied by the oracle `query`. -/
def ceRow (query : String → Except String JobStats) (fqdn : String) : CeRow :=
  match query fqdn with
  | Except.ok stats => { hostname := fqdn, stats := stats, commError := "" }
  | Except.error msg => { hostname := fqdn, stats := zeroStats, commError := msg }

/-- The full report loop: one row per endpoint, in iteration order. -/
def reportRows (query : String → Except String JobStats) (fqdns : List String) :
    List CeRow :=
  fqdns.map (ceRow query)

/-- A query oracle under which every endpoint fails with a fixed connection
error, used to exercise the failure branch of the report loop. -/
def failConst : String → Except String JobStats :=
  fun _ => Except.error "connection refused"

/-! ## VersionedConfigResolver: `GitRepo.checkout_at_date`

The git command line is an external collaborator; the first-parent chain of
the cloned repository is modelled as the list of commits in `rev-list` order
(newest first) with their commit timestamps.  `rev-list -n1 --first-parent
--before=D master` returns the most recent chain commit whose commit time is
strictly before midnight of the day `D`; `rev-list -n1 --max-parents=0
master` returns the earliest commit, the last of the chain list.
-/

/-- One commit of the first-parent chain: an identifier and the commit
timestamp (seconds, any epoch). -/
structure Commit where
  cid : Nat
  time : Int
deriving DecidableEq

/-- Modelled from the spec: the git interface call
`rev-list -n1 --first-parent --before=D master`, with `cutoff` the instant of
midnight (local time) of `D`.  On the newest-first chain this is the first
commit strictly older than the cutoff. -/
def revListBefore (chain : List Commit) (cutoff : Int) : Option Commit :=
  chain.find? (fun c => decide (c.time < cutoff))

/-- Modelled from the spec: the git interface call
`rev-list -n1 --max-parents=0 master`, the earliest commit of the chain. -/
def earliestCommit (chain : List Commit) : Option Commit :=
  chain.getLast?

/-- `GitRepo.checkout_at_date`: the commit that gets checked out for the
target date with midnight instant `cutoff` — the `--before` query result, or
the earliest commit when that query returns nothing.  `none` only when the
chain itself is empty. -/
def checkoutAtDate (chain : List Commit) (cutoff : Int) : Option Commit :=
  match revListBefore chain cutoff with
  | none => earliestCommit chain
  | some c => some c

/-! ## `GitRepo._git_run_command`: working-directory discipline

The method is a straight-line effect sequence:
`os.chdir(self.path)`, then `subprocess.Popen` + `communicate`, then
`os.chdir(self._old_workdir)`, then the returncode check that may raise
`RuntimeError`.  The state is the process working directory, passed
explicitly; the spawn outcome is an oracle.
-/

/-- A handle as built by `GitRepo.__init__`: `_old_workdir` is the working
directory recorded at construction, `path` the fresh temporary clone
directory. -/
structure GitRepoHandle where
  repo : String
  path : String
  oldWorkdir : String
deriving DecidableEq

/-- Outcome of the attempt to spawn and await the git child process. -/
inductive SpawnOutcome where
  | spawnFailure (msg : String)
  | completed (returncode : Int) (stdoutData : String)
deriving DecidableEq

/-- Errors escaping `_git_run_command`. -/
inductive GitRunError where
  | spawnError (msg : String)
  | commandFailed
deriving DecidableEq

/-- Working directory on exit paired with the returned stdout or the raised
error. -/
structure GitRunOutcome where
  cwd : String
  result : Except GitRunError String

/-- `GitRepo._git_run_command`: the directory change into the repository, the
spawn, the directory change back (which precedes the returncode check), and
the check. -/
def gitRunCommand (r : GitRepoHandle) (outcome : SpawnOutcome) : GitRunOutcome :=
  let cwdInRepo := r.path
  match outcome with
  | SpawnOutcome.spawnFailure m =>
    { cwd := cwdInRepo, result := Except.error (GitRunError.spawnError m) }
  | SpawnOutcome.completed rc out =>
    let cwdRestored := r.oldWorkdir
    if rc ≠ 0 then { cwd := cwdRestored, result := Except.error GitRunError.commandFailed }
    else { cwd := cwdRestored, result := Except.ok out }

/-! ## HistoricalSeriesDriver: `gwms-ce-counts.py`

`increment_month` and the `while query_date < date.today()` loop of `main`.
Python `datetime.date` values compare lexicographically by
(year, month, day); `calendar.monthrange(y, m)[1]` is the day count of the
month.
-/

/-- A Python `datetime.date` value (the source only ever builds valid
dates; `monthrange` below returns 0 outside months 1..12 where Python would
raise `IllegalMonthError`, a branch `increment_month` never reaches). -/
structure PyDate where
  year : Nat
  month : Nat
  day : Nat
deriving DecidableEq

/-- The Gregorian leap-year rule used by `calendar.isleap`. -/
def isLeap (y : Nat) : Bool :=
  y % 4 == 0 && (y % 100 != 0 || y % 400 == 0)

/-- `calendar.monthrange(y, m)[1]`: number of days of the month. -/
def monthrange (y m : Nat) : Nat :=
  if m = 1 ∨ m = 3 ∨ m = 5 ∨ m = 7 ∨ m = 8 ∨ m = 10 ∨ m = 12 then 31
  else if m = 4 ∨ m = 6 ∨ m = 9 ∨ m = 11 then 30
  else if m = 2 then (if isLeap y then 29 else 28)
  else 0

/-- `gwms-ce-counts.increment_month`: add one calendar month, clamping the
day of month to the last valid day of the target month. -/
def increment_month (d : PyDate) : PyDate :=
  let year := d.year + d.month / 12
  let month := d.month % 12 + 1
  let day := min d.day (monthrange year month)
  { year := year, month := month, day := day }

/-- Python `date` comparison: lexicographic on (year, month, day). -/
def dateLt (a b : PyDate) : Bool :=
  a.year < b.year ||
    (a.year == b.year &&
      (a.month < b.month || (a.month == b.month && a.day < b.day)))

/-- Month index with the month component capped, a termination measure
helper for the probe loop. -/
def ymCap (d : PyDate) : Nat :=
  d.year * 12 + min d.month 13

/-- The probe dates of the `while query_date < date.today()` loop of
`gwms-ce-counts.main`: the driver emits one record per element, labelled with
that date. -/
def probedMonths (today q : PyDate) : List PyDate :=
  if h : dateLt q today = true then q :: probedMonths today (increment_month q)
  else []
termination_by (today.year + 2) * 12 - ymCap q
decreasing_by
  have hyle : q.year ≤ today.year := by
    simp only [dateLt, Bool.or_eq_true, Bool.and_eq_true, decide_eq_true_eq,
      beq_iff_eq] at h
    omega
  have hmod : q.month % 12 < 12 := Nat.mod_lt _ (by omega)
  have hinc : ymCap (increment_month q) = q.year * 12 + q.month + 1 := by
    simp only [ymCap, increment_month]
    rw [Nat.min_eq_left (by omega : q.month % 12 + 1 ≤ 13)]
    omega
  have hlow : ymCap q ≤ q.year * 12 + q.month := by
    simp only [ymCap]
    have := Nat.min_le_left q.month 13
    omega
  have hhigh : ymCap q ≤ today.year * 12 + 13 := by
    simp only [ymCap]
    have := Nat.min_le_right q.month 13
    omega
  omega

/-! ## Helper lemmas -/

theorem mem_takeWhile_mem {α} {pr : α → Bool} {l : List α} {a : α}
    (h : a ∈ l.takeWhile pr) : a ∈ l :=
  (List.takeWhile_sublist pr).subset h

theorem mem_dropWhile_mem {α} {pr : α → Bool} {l : List α} {a : α}
    (h : a ∈ l.dropWhile pr) : a ∈ l :=
  (List.dropWhile_sublist pr).subset h

theorem takeWhileAll {α} (pr : α → Bool) :
    ∀ (l : List α), (∀ a ∈ l, pr a = true) → l.takeWhile pr = l := by
  intro l
  induction l with
  | nil => intro _; rfl
  | cons a t ih =>
    intro hl
    have ha : pr a = true := hl a (by simp)
    simp [List.takeWhile_cons, ha, ih (fun x hx => hl x (by simp [hx]))]

theorem takeWhileAllAppend {α} (pr : α → Bool) (b : α) (r : List α)
    (hb : pr b = false) :
    ∀ (l : List α), (∀ a ∈ l, pr a = true) → (l ++ b :: r).takeWhile pr = l := by
  intro l
  induction l with
  | nil => intro _; simp [List.takeWhile_cons, hb]
  | cons a t ih =>
    intro hl
    have ha : pr a = true := hl a (by simp)
    simp only [List.cons_append, List.takeWhile_cons, ha, if_true]
    simp [ih (fun x hx => hl x (by simp [hx]))]

theorem dropWhileConsFalse {α} (pr : α → Bool) (a : α) (t : List α)
    (ha : pr a = false) : (a :: t).dropWhile pr = a :: t := by
  simp [List.dropWhile_cons, ha]

theorem dropWhileHeadFalse {α} {pr : α → Bool} :
    ∀ {l t : List α} {a : α}, l.dropWhile pr = a :: t → pr a = false := by
  intro l
  induction l with
  | nil => intro t a h; simp [List.dropWhile] at h
  | cons x xs ih =>
    intro t a h
    rw [List.dropWhile_cons] at h
    by_cases hx : pr x = true
    · rw [if_pos hx] at h; exact ih h
    · rw [if_neg hx] at h
      cases h
      simpa using hx

/-! ## Claim C5: the configuration entry filter -/

/-- Claim C5: for every ConfigEntry, `_parse_gwms_config` admits it if and
only if its enabled attribute is the literal string "True" and its gridtype
attribute is the literal string "condor"; an entry with either attribute
missing is rejected through the falsy empty default, and the predicate is a
total Boolean function, raising nothing. -/
theorem c5_config_entry_filter (e : ConfigEntry) :
    gwmsAdmit e = true ↔ (e.enabled = some "True" ∧ e.gridtype = some "condor") := by
  cases he : e.enabled <;> cases hg : e.gridtype <;>
    simp [gwmsAdmit, entryGet, he, hg]

/-! ## Claim C6: the production document filter -/

/-- Claim C6 counterexample: the claim says every document name holding the
substring `-itb` is excluded under the production flag; the source tests for
the substring `-itb.xml` (line 116 of `ce_stats.py`), so the name
`10-itb-backup.xml`, which holds `-itb` but not `-itb.xml`, is kept. -/
theorem c6_production_filter_counterexample :
    factoryConfigs ["10-itb-backup.xml"] true = ["10-itb-backup.xml"] ∧
      containsSeq "10-itb-backup.xml".data "-itb".data = true := by
  constructor <;> decide

/-- Claim C6 (amended): with the production flag set, the configuration
extractor keeps exactly the documents matching the glob `*.xml` whose name
does not hold the substring `-itb.xml`. -/
theorem c6_production_filter_amended (files : List String) (f : String) :
    f ∈ factoryConfigs files true ↔
      (f ∈ files ∧ isXmlName f = true ∧ isItbName f = false) := by
  simp only [factoryConfigs, if_true, List.mem_filter, Bool.not_eq_true']
  tauto

/-! ## Claim C10: working-directory restoration -/

/-- Claim C10: whenever the git child process could be spawned, the process
working directory on exit from `_git_run_command` is the directory recorded
at GitRepo construction — both when the subcommand succeeds (returncode 0,
stdout returned) and when it exits nonzero and the RuntimeError is raised,
because the restoring `os.chdir` precedes the returncode check. -/
theorem c10_cwd_restored (r : GitRepoHandle) (rc : Int) (out : String) :
    (gitRunCommand r (SpawnOutcome.completed rc out)).cwd = r.oldWorkdir ∧
      (rc = 0 →
        (gitRunCommand r (SpawnOutcome.completed rc out)).result = Except.ok out) ∧
      (rc ≠ 0 →
        (gitRunCommand r (SpawnOutcome.completed rc out)).result =
          Except.error GitRunError.commandFailed) := by
  refine ⟨?_, ?_, ?_⟩
  · by_cases h : rc = 0 <;> simp [gitRunCommand, h]
  · intro h; simp [gitRunCommand, h]
  · intro h; simp [gitRunCommand, h]

/-- Witness for claim C10 at a concrete handle, exercised on a failing
returncode and on a succeeding one. -/
theorem c10_cwd_restored_witness :
    (gitRunCommand ⟨"https://example.org/repo", "/tmp/clone", "/home/user"⟩
        (SpawnOutcome.completed 1 "")).cwd = "/home/user" ∧
      (gitRunCommand ⟨"https://example.org/repo", "/tmp/clone", "/home/user"⟩
          (SpawnOutcome.completed 0 "out")).result = Except.ok "out" :=
  ⟨(c10_cwd_restored ⟨"https://example.org/repo", "/tmp/clone", "/home/user"⟩ 1 "").1,
    (c10_cwd_restored ⟨"https://example.org/repo", "/tmp/clone", "/home/user"⟩ 0 "out").2.1 rfl⟩

/-! ## Claim C1: the reconciled endpoint set of the main driver -/

/-- Claim C1 evaluated at the failing input of the end-to-end scenario: the
configuration snapshot admits `ce1.example.org` and rejects the disabled
`ce2.example.org`; the registry holds site `BNL` with endpoint
`ce3.example.org:9619`.  Because `main` passes the site-keyed dict returned
by `ce_stats.get_panda_ces` straight to `set.union`, which iterates a dict by
its keys, the reconciled set is `ce1.example.org, BNL` — the site name, not
the registry endpoint — and differs from the set the claim demands, which is
computed by `specReconciled`. -/
theorem c1_reconciler_uses_dict_keys :
    mainCeFqdns
        [("10-main.xml",
          [⟨some "ce1.example.org:9619", some "True", some "condor"⟩,
           ⟨some "ce2.example.org", some "False", some "condor"⟩])]
        [("r1", ⟨some "BNL", some [⟨some "ce3.example.org:9619"⟩]⟩)]
      = Except.ok {"ce1.example.org", "BNL"} ∧
    specReconciled
        [("10-main.xml",
          [⟨some "ce1.example.org:9619", some "True", some "condor"⟩,
           ⟨some "ce2.example.org", some "False", some "condor"⟩])]
        [("r1", ⟨some "BNL", some [⟨some "ce3.example.org:9619"⟩]⟩)]
      = Except.ok {"ce1.example.org", "ce3.example.org"} ∧
    ({"ce1.example.org", "BNL"} : Finset String) ≠
      {"ce1.example.org", "ce3.example.org"} := by
  refine ⟨by decide, by decide, by decide⟩

/-! ## Claim C7: per-endpoint failure isolation in the report loop -/

/-- Claim C7 counterexample: the claim says the error slot of a failed
endpoint holds a non-empty description, but `main` stores `str(exc)`
verbatim, and a raised exception may carry an empty description — the
resulting row then has all seven counts zero yet an EMPTY error slot. -/
theorem c7_tally_isolation_counterexample :
    reportRows (fun _ => Except.error "") ["ce1.example.org"]
      = [{ hostname := "ce1.example.org", stats := zeroStats, commError := "" }] ∧
    ({ hostname := "ce1.example.org", stats := zeroStats,
       commError := "" : CeRow }).commError = "" := by
  exact ⟨rfl, rfl⟩

/-- Claim C7 (amended): every failure of `get_ce_jobs` for one endpoint is
caught and converted into a row with all seven counts zero and the error
slot holding the description of the failure (non-empty exactly when that
description is); the report still holds exactly one row per endpoint, and
the row at position i is computed from the query outcome of the endpoint at
position i alone, so one endpoint's failure never disturbs the rows of the
others. -/
theorem c7_tally_isolation_amended (query : String → Except String JobStats)
    (fqdns : List String) :
    (reportRows query fqdns).length = fqdns.length ∧
    (∀ i : Nat, (reportRows query fqdns)[i]? = (fqdns[i]?).map (ceRow query)) ∧
    (∀ f e, query f = Except.error e →
      ceRow query f = { hostname := f, stats := zeroStats, commError := e }) ∧
    (∀ f s, query f = Except.ok s →
      ceRow query f = { hostname := f, stats := s, commError := "" }) := by
  refine ⟨?_, ?_, ?_, ?_⟩
  · simp [reportRows]
  · intro i; simp [reportRows, List.getElem?_map]
  · intro f e h; simp [ceRow, h]
  · intro f s h; simp [ceRow, h]

/-- Witness for claim C7: the amended theorem applied to the all-failing
oracle on one endpoint. -/
theorem c7_tally_isolation_witness :
    ceRow failConst "ce1.example.org" =
      { hostname := "ce1.example.org", stats := zeroStats,
        commError := "connection refused" } :=
  (c7_tally_isolation_amended failConst ["ce1.example.org"]).2.2.1
    "ce1.example.org" "connection refused" rfl

/-! ## Claim C8: missing registry fields abort the query -/

/-- Claim C8 counterexample: a resource record missing `atlas_site`, one
missing `queues`, and one whose queue is missing `ce_endpoint` each make
`get_panda_ces` raise a `KeyError` that propagates out of the function —
the record is NOT skipped, contrary to the claim. -/
theorem c8_missing_field_counterexample :
    getPandaCes [("r1", ⟨none, some [⟨some "ce3.example.org:9619"⟩]⟩)]
      = Except.error (PyExc.keyError "atlas_site") ∧
    getPandaCes [("r2", ⟨some "SITE", none⟩)]
      = Except.error (PyExc.keyError "queues") ∧
    getPandaCes [("r3", ⟨some "SITE", some [⟨none⟩]⟩)]
      = Except.error (PyExc.keyError "ce_endpoint") := by
  exact ⟨rfl, rfl, rfl⟩

theorem queueLoop_missing_endpoint (site : String) :
    ∀ (qs : List PandaQueue) (acc : List (String × List String)),
      (∃ q ∈ qs, q.ce_endpoint = none) →
      ∃ e, queueLoop site acc qs = Except.error e := by
  intro qs
  induction qs with
  | nil => intro acc h; simp at h
  | cons q rest ih =>
    intro acc h
    cases hq : q.ce_endpoint with
    | none =>
      exact ⟨PyExc.keyError "ce_endpoint",
        by simp [queueLoop, pyGet, hq, Bind.bind, Except.bind]⟩
    | some ce =>
      cases hf : ceStatsFqdn ce with
      | none =>
        exact ⟨PyExc.indexError,
          by simp [queueLoop, pyGet, liftOpt, hq, hf, Bind.bind, Except.bind]⟩
      | some ep =>
        have hrest : ∃ x ∈ rest, x.ce_endpoint = none := by
          rcases h with ⟨x, hx, hxe⟩
          rcases List.mem_cons.mp hx with rfl | hx2
          · rw [hq] at hxe; cases hxe
          · exact ⟨x, hx2, hxe⟩
        rcases ih (updSite acc site ep) hrest with ⟨e, he⟩
        exact ⟨e, by simp [queueLoop, pyGet, liftOpt, hq, hf, he, Bind.bind, Except.bind]⟩

theorem pandaLoop_missing_field :
    ∀ (resources : List (String × PandaResource)) (acc : List (String × List String)),
      (∃ x ∈ resources, x.2.atlas_site = none ∨ x.2.queues = none ∨
        ∃ q ∈ x.2.queues.getD [], q.ce_endpoint = none) →
      ∃ e, pandaLoop acc resources = Except.error e := by
  intro resources
  induction resources with
  | nil => intro acc h; simp at h
  | cons r rest ih =>
    intro acc h
    cases hsite : r.2.atlas_site with
    | none =>
      exact ⟨PyExc.keyError "atlas_site",
        by obtain ⟨k, info⟩ := r; simp at hsite
           simp [pandaLoop, pyGet, hsite, Bind.bind, Except.bind]⟩
    | some site =>
      cases hqs : r.2.queues with
      | none =>
        exact ⟨PyExc.keyError "queues",
          by obtain ⟨k, info⟩ := r; simp at hsite hqs
             simp [pandaLoop, pyGet, hsite, hqs, Bind.bind, Except.bind]⟩
      | some qs =>
        cases hloop : queueLoop site acc qs with
        | error e =>
          exact ⟨e,
            by obtain ⟨k, info⟩ := r; simp at hsite hqs
               simp [pandaLoop, pyGet, hsite, hqs, hloop, Bind.bind, Except.bind]⟩
        | ok acc2 =>
          have hrest : ∃ x ∈ rest, x.2.atlas_site = none ∨ x.2.queues = none ∨
              ∃ q ∈ x.2.queues.getD [], q.ce_endpoint = none := by
            rcases h with ⟨x, hx, hbad⟩
            rcases List.mem_cons.mp hx with rfl | hx2
            · exfalso
              rcases hbad with h1 | h2 | h3
              · rw [hsite] at h1; cases h1
              · rw [hqs] at h2; cases h2
              · rw [hqs] at h3
                rcases h3 with ⟨q, hq, hqe⟩
                simp only [Option.getD_some] at hq
                rcases queueLoop_missing_endpoint site qs acc ⟨q, hq, hqe⟩ with ⟨e, he⟩
                rw [hloop] at he; cases he
            · exact ⟨x, hx2, hbad⟩
          rcases ih acc2 hrest with ⟨e, he⟩
          exact ⟨e,
            by obtain ⟨k, info⟩ := r; simp at hsite hqs
               simp [pandaLoop, pyGet, hsite, hqs, hloop, he, Bind.bind, Except.bind]⟩

/-- Claim C8 (amended): a resource record missing a required field — the
site identifier, the queue list, or a queue's contact string — raises a
`KeyError` that ABORTS the whole registry query rather than being skipped;
network/transport failure and malformed JSON likewise surface as fatal
errors (they abort before the parsing loop runs). -/
theorem c8_missing_field_aborts (resources : List (String × PandaResource))
    (hbad : ∃ x ∈ resources, x.2.atlas_site = none ∨ x.2.queues = none ∨
      ∃ q ∈ x.2.queues.getD [], q.ce_endpoint = none) :
    ∃ e, getPandaCes resources = Except.error e :=
  pandaLoop_missing_field resources [] hbad

/-- Witness for claim C8 at a concrete registry response missing a site
identifier. -/
theorem c8_missing_field_witness :
    ∃ e, getPandaCes [("r1", ⟨none, some [⟨some "ce3.example.org:9619"⟩]⟩)]
      = Except.error e :=
  c8_missing_field_aborts _ (by decide)

/-! ## Normalizer lemmas for claims C3 and C4 -/

theorem firstToken_clean (h : List Char) (hne : h ≠ [])
    (hws : ∀ c ∈ h, pyIsSpace c = false) : firstToken h = some h := by
  cases h with
  | nil => exact absurd rfl hne
  | cons c cs =>
    have hc : pyIsSpace c = false := hws c (by simp)
    unfold firstToken
    rw [dropWhileConsFalse pyIsSpace c cs hc]
    show some ((c :: cs).takeWhile (fun a => !(pyIsSpace a))) = some (c :: cs)
    rw [takeWhileAll (fun a => !(pyIsSpace a)) (c :: cs)
      (fun x hx => by simp [hws x hx])]

theorem firstToken_two_tokens (h1 h2 : List Char) (hne : h1 ≠ [])
    (hws : ∀ c ∈ h1, pyIsSpace c = false) :
    firstToken (h1 ++ ' ' :: h2) = some h1 := by
  cases h1 with
  | nil => exact absurd rfl hne
  | cons c cs =>
    have hc : pyIsSpace c = false := hws c (by simp)
    unfold firstToken
    rw [List.cons_append, dropWhileConsFalse pyIsSpace c (cs ++ ' ' :: h2) hc]
    show some ((c :: (cs ++ ' ' :: h2)).takeWhile (fun a => !(pyIsSpace a)))
      = some (c :: cs)
    rw [← List.cons_append,
      takeWhileAllAppend (fun a => !(pyIsSpace a)) ' ' h2 (by decide) (c :: cs)
        (fun x hx => by simp [hws x hx])]

theorem beforeColon_append (h : List Char) (p : List Char)
    (hcol : ∀ c ∈ h, c ≠ ':') : beforeColon (h ++ ':' :: p) = h := by
  unfold beforeColon
  exact takeWhileAllAppend (fun c => c != ':') ':' p (by decide) h
    (fun x hx => by simp [bne_iff_ne]; exact hcol x hx)

theorem beforeColon_all (h : List Char) (hcol : ∀ c ∈ h, c ≠ ':') :
    beforeColon h = h := by
  unfold beforeColon
  exact takeWhileAll (fun c => c != ':') h
    (fun x hx => by simp [bne_iff_ne]; exact hcol x hx)

theorem ceStatsFqdn_clean (h : List Char) (hne : h ≠ [])
    (hok : ∀ c ∈ h, c ≠ ':' ∧ pyIsSpace c = false) :
    ceStatsFqdn ⟨h⟩ = some ⟨h⟩ := by
  show (firstToken (beforeColon h)).map (fun l => (⟨l⟩ : String)) = some ⟨h⟩
  rw [beforeColon_all h (fun x hx => (hok x hx).1),
    firstToken_clean h hne (fun x hx => (hok x hx).2)]
  rfl

theorem ceStatsFqdn_fix (s t : String) (hst : ceStatsFqdn s = some t) :
    ceStatsFqdn t = some t := by
  unfold ceStatsFqdn at hst
  rcases Option.map_eq_some'.mp hst with ⟨tok, hft, htk⟩
  subst htk
  unfold firstToken at hft
  cases hd : (beforeColon s.data).dropWhile pyIsSpace with
  | nil => rw [hd] at hft; cases hft
  | cons c cs =>
    rw [hd] at hft
    have htok : tok = (c :: cs).takeWhile (fun a => !(pyIsSpace a)) :=
      (Option.some.injEq _ _ ▸ hft).symm
    have hc : pyIsSpace c = false := dropWhileHeadFalse hd
    have hne : tok ≠ [] := by
      rw [htok, List.takeWhile_cons]
      simp [hc]
    have hok : ∀ x ∈ tok, x ≠ ':' ∧ pyIsSpace x = false := by
      intro x hx
      have hxcs : x ∈ c :: cs := mem_takeWhile_mem (htok ▸ hx)
      have hxbc : x ∈ beforeColon s.data := mem_dropWhile_mem (hd ▸ hxcs)
      have hxbc2 : x ∈ (s.data).takeWhile (fun c => c != ':') := by
        simpa [beforeColon] using hxbc
      have hxcol := List.mem_takeWhile_imp hxbc2
      have hxws := List.mem_takeWhile_imp (htok ▸ hx)
      refine ⟨by simpa [bne_iff_ne] using hxcol, by simpa using hxws⟩
    exact ceStatsFqdn_clean tok hne hok

/-! ## Claim C3: the two Normalizer variants on the three contact shapes -/

/-- Claim C3: for hosts free of colons and whitespace, the ce_stats
Normalizer maps `h:p` to `h`, `h` to `h`, and `h1 h2:p` to `h1`, and every
output of the ce_stats Normalizer is one of its fixed points — exactly as
the claim demands.  The global_ces variant, however, maps `h1 h2:p` to the
two-token string `h1 h2`, which differs from `h1`: the code of
`global_ces._ce_fqdn` contradicts the claim (and its own docstring, which
promises the CE FQDN). -/
theorem c3_normalizer_variants (h1 h2 p : List Char) (hne1 : h1 ≠ [])
    (hok1 : ∀ c ∈ h1, c ≠ ':' ∧ pyIsSpace c = false) (hne2 : h2 ≠ [])
    (hok2 : ∀ c ∈ h2, c ≠ ':' ∧ pyIsSpace c = false) :
    ceStatsFqdn ⟨h1 ++ ':' :: p⟩ = some ⟨h1⟩ ∧
    ceStatsFqdn ⟨h1⟩ = some ⟨h1⟩ ∧
    ceStatsFqdn ⟨h1 ++ ' ' :: (h2 ++ ':' :: p)⟩ = some ⟨h1⟩ ∧
    (∀ s t : String, ceStatsFqdn s = some t → ceStatsFqdn t = some t) ∧
    globalCesFqdn ⟨h1 ++ ' ' :: (h2 ++ ':' :: p)⟩ = ⟨h1 ++ ' ' :: h2⟩ ∧
    (⟨h1 ++ ' ' :: h2⟩ : String) ≠ ⟨h1⟩ := by
  have hmid : h1 ++ ' ' :: (h2 ++ ':' :: p) = (h1 ++ ' ' :: h2) ++ ':' :: p := by
    simp
  have hmidok : ∀ c ∈ h1 ++ ' ' :: h2, c ≠ ':' := by
    intro c hc
    rcases List.mem_append.mp hc with hc1 | hc2
    · exact (hok1 c hc1).1
    · rcases List.mem_cons.mp hc2 with rfl | hc3
      · decide
      · exact (hok2 c hc3).1
  refine ⟨?_, ?_, ?_, ceStatsFqdn_fix, ?_, ?_⟩
  · show (firstToken (beforeColon (h1 ++ ':' :: p))).map (fun l => (⟨l⟩ : String))
      = some ⟨h1⟩
    rw [beforeColon_append h1 p (fun x hx => (hok1 x hx).1),
      firstToken_clean h1 hne1 (fun x hx => (hok1 x hx).2)]
    rfl
  · exact ceStatsFqdn_clean h1 hne1 hok1
  · show (firstToken (beforeColon (h1 ++ ' ' :: (h2 ++ ':' :: p)))).map
      (fun l => (⟨l⟩ : String)) = some ⟨h1⟩
    rw [hmid, beforeColon_append _ p hmidok,
      firstToken_two_tokens h1 h2 hne1 (fun x hx => (hok1 x hx).2)]
    rfl
  · show (⟨beforeColon (h1 ++ ' ' :: (h2 ++ ':' :: p))⟩ : String) = ⟨h1 ++ ' ' :: h2⟩
    rw [hmid, beforeColon_append _ p hmidok]
  · intro hcontra
    have hdata : h1 ++ ' ' :: h2 = h1 := congrArg String.data hcontra
    have hlen := congrArg List.length hdata
    rw [List.length_append, List.length_cons] at hlen
    omega

/-- Witness for claim C3 at the concrete hosts `a.example.org` and
`b.example.org` with port `9619`. -/
theorem c3_normalizer_witness :
    ceStatsFqdn ⟨"a.example.org".data ++ ':' :: "9619".data⟩
        = some ⟨"a.example.org".data⟩ ∧
    ceStatsFqdn ⟨"a.example.org".data⟩ = some ⟨"a.example.org".data⟩ ∧
    ceStatsFqdn ⟨"a.example.org".data ++ ' ' :: ("b.example.org".data ++
        ':' :: "9619".data)⟩ = some ⟨"a.example.org".data⟩ ∧
    (∀ s t : String, ceStatsFqdn s = some t → ceStatsFqdn t = some t) ∧
    globalCesFqdn ⟨"a.example.org".data ++ ' ' :: ("b.example.org".data ++
        ':' :: "9619".data)⟩
      = ⟨"a.example.org".data ++ ' ' :: "b.example.org".data⟩ ∧
    (⟨"a.example.org".data ++ ' ' :: "b.example.org".data⟩ : String) ≠
      ⟨"a.example.org".data⟩ :=
  c3_normalizer_variants "a.example.org".data "b.example.org".data "9619".data
    (by decide) (by decide) (by decide) (by decide)

/-! ## Claim C4: Normalizer failure behaviour -/

/-- Claim C4 counterexample: the claim says the Normalizer returns an empty
identifier on empty input rather than raising, and returns without error on
every non-empty input.  The ce_stats variant instead raises `IndexError` on
the empty string AND on the non-empty input `:9619`; the global_ces variant
returns the empty identifier on the non-empty input `:9619`, so it does not
fail only on null/empty input either. -/
theorem c4_normalizer_failure_counterexample :
    ceStatsFqdn "" = none ∧
    ceStatsFqdn ":9619" = none ∧
    globalCesFqdn ":9619" = "" ∧
    (":9619" : String) ≠ "" := by
  refine ⟨by decide, by decide, by decide, by decide⟩

theorem firstToken_eq_none_iff (l : List Char) :
    firstToken l = none ↔ ∀ c ∈ l, pyIsSpace c = true := by
  unfold firstToken
  cases hd : l.dropWhile pyIsSpace with
  | nil =>
    constructor
    · intro _ c hc
      simpa using List.dropWhile_eq_nil_iff.mp hd c hc
    · intro _; rfl
  | cons c cs =>
    constructor
    · intro hcontra; exact absurd hcontra (by simp)
    · intro hall
      exfalso
      have hcmem : c ∈ l.dropWhile pyIsSpace := hd ▸ List.mem_cons_self c cs
      have hcl : c ∈ l := mem_dropWhile_mem hcmem
      have hcfalse : pyIsSpace c = false := dropWhileHeadFalse hd
      rw [hall c hcl] at hcfalse
      cases hcfalse

/-- Claim C4 (amended): the global_ces Normalizer never raises and returns
the empty identifier exactly when the part of the input before the first
colon is empty (so also on non-empty inputs such as `:9619`); the ce_stats
Normalizer raises an `IndexError` exactly when that part holds only
whitespace — which covers the empty input, where it raises instead of
returning an empty identifier — and returns a result without error on every
other input. -/
theorem c4_normalizer_failure_amended (s : String) :
    (ceStatsFqdn s = none ↔ ∀ c ∈ beforeColon s.data, pyIsSpace c = true) ∧
    (globalCesFqdn s = "" ↔ beforeColon s.data = []) := by
  constructor
  · show (firstToken (beforeColon s.data)).map (fun l => (⟨l⟩ : String)) = none ↔ _
    rw [Option.map_eq_none']
    exact firstToken_eq_none_iff (beforeColon s.data)
  · constructor
    · intro h
      exact congrArg String.data h
    · intro h
      show (⟨beforeColon s.data⟩ : String) = ""
      rw [h]

/-! ## Claim C9: monthly stepping of the historical series driver -/

theorem probedMonths_spec (today q : PyDate) :
    ((probedMonths today q).all (fun d => dateLt d today)) = true ∧
    probedMonths today q =
      (List.range (probedMonths today q).length).map (fun i => increment_month^[i] q) ∧
    dateLt (increment_month^[(probedMonths today q).length] q) today = false := by
  induction q using probedMonths.induct today with
  | case1 q h ih =>
    rw [probedMonths, dif_pos h]
    constructor
    · simp only [List.all_cons, Bool.and_eq_true]
      exact ⟨h, ih.1⟩
    constructor
    · rw [List.length_cons, List.range_succ_eq_map, List.map_cons, List.map_map]
      have hfun : (fun i => increment_month^[i] q) ∘ Nat.succ
          = (fun i => increment_month^[i] (increment_month q)) := by
        funext i
        simp [Function.comp, Function.iterate_succ_apply]
      rw [hfun, ← ih.2.1]
      simp [Function.iterate_zero_apply]
    · rw [List.length_cons, Function.iterate_succ_apply]
      exact ih.2.2
  | case2 q h =>
    rw [probedMonths, dif_neg h]
    refine ⟨rfl, rfl, ?_⟩
    simpa using h

/-- Claim C9: `increment_month` steps one calendar month with the day of
month clamped to the last valid day of the target month — three iterations
from 2016-05-01 probe 2016-05-01, 2016-06-01 and 2016-07-01, and one step
from 2020-01-31 yields 2020-02-29 — and the driver loop emits exactly one
record per probed month: the i-th emitted date is the i-th month step from
the start, every emitted date is strictly before today, and the loop stops
exactly when the stepped date is no longer strictly before today. -/
theorem c9_historical_series :
    increment_month ⟨2016, 5, 1⟩ = ⟨2016, 6, 1⟩ ∧
    increment_month ⟨2016, 6, 1⟩ = ⟨2016, 7, 1⟩ ∧
    increment_month ⟨2020, 1, 31⟩ = ⟨2020, 2, 29⟩ ∧
    probedMonths ⟨2016, 7, 15⟩ ⟨2016, 5, 1⟩
      = [⟨2016, 5, 1⟩, ⟨2016, 6, 1⟩, ⟨2016, 7, 1⟩] ∧
    (∀ today q : PyDate,
      ((probedMonths today q).all (fun d => dateLt d today)) = true ∧
      probedMonths today q =
        (List.range (probedMonths today q).length).map
          (fun i => increment_month^[i] q) ∧
      dateLt (increment_month^[(probedMonths today q).length] q) today = false) := by
  refine ⟨by decide, by decide, by decide, ?_, probedMonths_spec⟩
  simp [probedMonths, increment_month, dateLt, monthrange, isLeap]

/-! ## Claim C2: commit selection of `checkout_at_date` -/

theorem find_lt_max (cutoff : Int) :
    ∀ (chain : List Commit) (r : Commit),
      chain.Pairwise (fun a b => b.time < a.time) →
      chain.find? (fun c => decide (c.time < cutoff)) = some r →
      ∀ c ∈ chain, c.time < cutoff → c.time ≤ r.time := by
  intro chain
  induction chain with
  | nil => intro r _ hf; cases hf
  | cons a t ih =>
    intro r hp hf c hc hclt
    rcases List.pairwise_cons.mp hp with ⟨hat, hpt⟩
    by_cases ha : a.time < cutoff
    · rw [List.find?_cons_of_pos t (by simpa using ha)] at hf
      have hra : r = a := by simpa using hf.symm
      subst hra
      rcases List.mem_cons.mp hc with rfl | hct
      · exact le_refl _
      · exact le_of_lt (hat c hct)
    · rw [List.find?_cons_of_neg t (by simpa using ha)] at hf
      rcases List.mem_cons.mp hc with rfl | hct
      · exact absurd hclt ha
      · exact ih r hpt hf c hct hclt

/-- Claim C2: on a first-parent chain with strictly decreasing commit times
(listed newest first) and a target date with midnight instant `cutoff`,
`checkout_at_date` selects the most recent chain commit strictly before the
cutoff when one exists; when none exists (the date predates the repository)
it selects the earliest commit; and when the date lies after the whole
history it selects the tip — in every case returning a commit without
raising. -/
theorem c2_checkout_at_date (chain : List Commit) (cutoff : Int)
    (hsorted : chain.Pairwise (fun a b => b.time < a.time)) :
    ((∃ c ∈ chain, c.time < cutoff) →
      ∃ r, checkoutAtDate chain cutoff = some r ∧ r ∈ chain ∧ r.time < cutoff ∧
        ∀ c ∈ chain, c.time < cutoff → c.time ≤ r.time) ∧
    (chain ≠ [] → (∀ c ∈ chain, ¬ c.time < cutoff) →
      ∃ r, checkoutAtDate chain cutoff = some r ∧ chain.getLast? = some r) ∧
    (chain ≠ [] → (∀ c ∈ chain, c.time < cutoff) →
      ∃ r, checkoutAtDate chain cutoff = some r ∧ chain.head? = some r) := by
  refine ⟨?_, ?_, ?_⟩
  · rintro ⟨c, hc, hlt⟩
    cases hf : chain.find? (fun c => decide (c.time < cutoff)) with
    | none =>
      exfalso
      exact (List.find?_eq_none.mp hf c hc) (by simpa using hlt)
    | some r =>
      refine ⟨r, ?_, List.mem_of_find?_eq_some hf, ?_, find_lt_max cutoff chain r hsorted hf⟩
      · unfold checkoutAtDate revListBefore
        rw [hf]
      · simpa using List.find?_some hf
  · intro hne hall
    have hf : chain.find? (fun c => decide (c.time < cutoff)) = none :=
      List.find?_eq_none.mpr (fun x hx => by simpa using hall x hx)
    cases chain with
    | nil => exact absurd rfl hne
    | cons a t =>
      refine ⟨(a :: t).getLast (by simp), ?_, List.getLast?_eq_getLast (a :: t) (by simp)⟩
      unfold checkoutAtDate revListBefore earliestCommit
      rw [hf, List.getLast?_eq_getLast (a :: t) (by simp)]
  · intro hne hall
    cases chain with
    | nil => exact absurd rfl hne
    | cons a t =>
      refine ⟨a, ?_, rfl⟩
      unfold checkoutAtDate revListBefore
      rw [List.find?_cons_of_pos t (by simpa using hall a (by simp))]

/-- Witness for claim C2 on a concrete two-commit chain: the cutoff 150 lies
between the two commit times, so the older commit (time 100) is selected as
the most recent one strictly before the cutoff. -/
theorem c2_checkout_witness :
    ∃ r, checkoutAtDate [⟨2, 200⟩, ⟨1, 100⟩] 150 = some r ∧
      r ∈ [Commit.mk 2 200, Commit.mk 1 100] ∧ r.time < 150 ∧
      ∀ c ∈ [Commit.mk 2 200, Commit.mk 1 100], c.time < 150 → c.time ≤ r.time :=
  (c2_checkout_at_date [⟨2, 200⟩, ⟨1, 100⟩] 150 (by decide)).1
    ⟨⟨1, 100⟩, by decide, by decide⟩
